import Mathlib

/-!
Verification development for the type-graph transformation-synthesis subsystem:
the `make-transformations` rewrite pass (MakeTransformations.ts) and the
Transformer / Transformation hierarchy (Transformers.ts).

Shallow embedding conventions:
- `TypeRef` is a generation-scoped handle: a pair of a graph-generation id and a
  node index.  The collaborators TypeBuilder.ts / Support.ts / GraphRewriting.ts
  are not part of the sources under verification; where their behaviour is
  needed it is modelled from the spec and marked `Modelled from the spec`.
- The Transformer slot fields are typed `Transformer | undefined` in the
  source, but the call sites are JavaScript calls: an argument of any runtime
  class can land in a slot.  The constructor `Transformer.RawTypeRefValue`
  represents a `TypeRef` object stored where a `Transformer` was declared;
  method calls on it fail the way a missing JavaScript method fails, which the
  embedding renders as `Except.error`.
- Fallible operations return `Except String`; an `assert` / `panic` aborting
  the pass is an `Except.error` value.
-/

set_option maxRecDepth 10000
set_option maxHeartbeats 1600000

/-- Modelled from the spec (TypeBuilder.ts is not among the sources): a
`TypeRef` is a handle bound to one node of one graph generation; equality is
node identity, i.e. equality of generation id and node index. -/
structure TypeRef where
  graph : Nat
  index : Nat
  deriving DecidableEq, Repr

/-- Modelled from the spec: `TypeRef.equals` compares by node identity. -/
def TypeRef.equals (a b : TypeRef) : Bool :=
  a == b

/-- Modelled from the spec (Support.ts is not among the sources): the seed for
field-wise hash combination. -/
def hashCodeInit : Nat := 17

/-- Modelled from the spec: combines one more field hash into an accumulator,
in a fixed order, on 32-bit numbers. -/
def addHashCode (acc h : Nat) : Nat :=
  (acc * 31 + h) % 4294967296

/-- Modelled from the spec: a deterministic hash for a `TypeRef`, consistent
with identity equality. -/
def TypeRef.hashCode (r : TypeRef) : Nat :=
  addHashCode r.graph r.index

/-- The primitive type kinds this pass works with: the five scalar member
kinds queried by `transformerForKind` plus `"any"`, the opaque placeholder
kind. -/
inductive PrimKind where
  | pnull
  | pinteger
  | pdouble
  | pbool
  | pstring
  | pany
  deriving DecidableEq, Repr

/-- The Transformer hierarchy of Transformers.ts.
`DecodingTransformer` carries the seven optional slot sub-transformers
(null, integer, double, bool, string, array, object), in constructor order.
`UnionInstantiationTransformer` stores exactly one `TypeRef` (`_unionRef`).
`RawTypeRefValue` is not a class of the source: it represents a plain
`TypeRef` object stored in a `Transformer | undefined` slot by an untyped
JavaScript call (see `replace` below). -/
inductive Transformer where
  | DecodingTransformer
      (nullTransformer integerTransformer doubleTransformer boolTransformer
        stringTransformer arrayTransformer objectTransformer : Option Transformer)
  | UnionInstantiationTransformer (unionRef : TypeRef)
  | RawTypeRefValue (ref : TypeRef)
  deriving Repr

/-- A `Transformation` pairs one target type (held by `TypeRef`) with one
`Transformer`, as in Transformers.ts. -/
structure Transformation where
  targetTypeRef : TypeRef
  transformer : Transformer
  deriving Repr

/-- A graph node: a primitive of some kind, or a union with an ordered list of
member refs.  The only attribute relevant to this subsystem is the
`"transformation"` attribute (spec section 9), so the attribute map is
modelled as `Option Transformation`. -/
inductive TNode where
  | prim (kind : PrimKind) (attrs : Option Transformation)
  | unionN (members : List TypeRef) (attrs : Option Transformation)
  deriving Repr

/-- The two graph generations a single pass can see: the old (input)
generation 0 and the new generation 1 under construction. -/
structure Graphs where
  oldNodes : List TNode
  newNodes : List TNode

/-- Dereference a `TypeRef` against the two generations. -/
def derefG (gs : Graphs) (r : TypeRef) : Option TNode :=
  if r.graph == 0 then gs.oldNodes.get? r.index
  else if r.graph == 1 then gs.newNodes.get? r.index
  else none

/-- Insertion-ordered set `add` on children lists (immutable `OrderedSet.add`):
append the element unless it is already present. -/
def osAdd (l : List TypeRef) (x : TypeRef) : List TypeRef :=
  if x ∈ l then l else l ++ [x]

/-- Insertion-ordered set union (immutable `OrderedSet.union`): add every
element of the second list, in order, to the first. -/
def osUnion (a b : List TypeRef) : List TypeRef :=
  b.foldl osAdd a

/-- The `unionType` getter of `UnionInstantiationTransformer`: dereference the
stored ref and panic ("Union instantiator with the wrong type") unless the node
is a union. -/
def unionTypeOf (gs : Graphs) (r : TypeRef) : Except String TNode :=
  match derefG gs r with
  | some (TNode.unionN ms a) => Except.ok (TNode.unionN ms a)
  | some _ => Except.error "Union instantiator with the wrong type"
  | none => Except.error "Union instantiator with the wrong type"

mutual

/-- `Transformer.getChildren` from Transformers.ts.  The decoding variant
unions the children of each defined slot, in slot order; the union
instantiation variant returns the singleton of its referenced union (and
panics, via `unionType`, when the ref does not hold a union); a raw `TypeRef`
in a slot has no `getChildren` method, so calling it fails. -/
def Transformer.getChildren (gs : Graphs) : Transformer → Except String (List TypeRef)
  | Transformer.DecodingTransformer n i d b s a o => do
      let c1 ← slotChildren gs n []
      let c2 ← slotChildren gs i c1
      let c3 ← slotChildren gs d c2
      let c4 ← slotChildren gs b c3
      let c5 ← slotChildren gs s c4
      let c6 ← slotChildren gs a c5
      slotChildren gs o c6
  | Transformer.UnionInstantiationTransformer r =>
      match unionTypeOf gs r with
      | Except.ok _ => Except.ok (osAdd [] r)
      | Except.error e => Except.error e
  | Transformer.RawTypeRefValue _ => Except.error "getChildren is not a function"

/-- One `if (slot !== undefined) children = children.union(slot.getChildren())`
step of `DecodingTransformer.getChildren`. -/
def slotChildren (gs : Graphs) : Option Transformer → List TypeRef → Except String (List TypeRef)
  | none, acc => Except.ok acc
  | some t, acc => do
      let cs ← Transformer.getChildren gs t
      Except.ok (osUnion acc cs)

end

/-- `Transformation.getChildren` from Transformers.ts: the transformer's
children plus the target type. -/
def Transformation.getChildren (gs : Graphs) (t : Transformation) : Except String (List TypeRef) :=
  match Transformer.getChildren gs t.transformer with
  | Except.ok cs => Except.ok (osAdd cs t.targetTypeRef)
  | Except.error e => Except.error e

mutual

/-- `Transformer.equals` from Transformers.ts: an `instanceof` check on the
variant, then field-wise comparison — `is` (recursive `equals`) on each slot
for the decoding variant, `TypeRef.equals` for the stored refs. -/
def Transformer.equals : Transformer → Transformer → Bool
  | Transformer.DecodingTransformer n1 i1 d1 b1 s1 a1 o1, other =>
      match other with
      | Transformer.DecodingTransformer n2 i2 d2 b2 s2 a2 o2 =>
          optIs n1 n2 && optIs i1 i2 && optIs d1 d2 && optIs b1 b2 &&
            optIs s1 s2 && optIs a1 a2 && optIs o1 o2
      | _ => false
  | Transformer.UnionInstantiationTransformer r1, other =>
      match other with
      | Transformer.UnionInstantiationTransformer r2 => TypeRef.equals r1 r2
      | _ => false
  | Transformer.RawTypeRefValue r1, other =>
      match other with
      | Transformer.RawTypeRefValue r2 => TypeRef.equals r1 r2
      | _ => false

/-- Immutable's `is` applied to an optional slot: `undefined` equals only
`undefined`; two present values compare with their own `equals`. -/
def optIs : Option Transformer → Option Transformer → Bool
  | none, none => true
  | some x, some y => Transformer.equals x y
  | none, some _ => false
  | some _, none => false

end

mutual

/-- `Transformer.hashCode` from Transformers.ts: the decoding variant folds
`addHashCode` over the hash of each of the seven slots starting from
`hashCodeInit`; the other variants hash their stored ref. -/
def Transformer.hashCode : Transformer → Nat
  | Transformer.DecodingTransformer n i d b s a o =>
      addHashCode (addHashCode (addHashCode (addHashCode (addHashCode (addHashCode
        (addHashCode hashCodeInit (optHash n)) (optHash i)) (optHash d)) (optHash b))
        (optHash s)) (optHash a)) (optHash o)
  | Transformer.UnionInstantiationTransformer r => TypeRef.hashCode r
  | Transformer.RawTypeRefValue r => TypeRef.hashCode r

/-- Immutable's `hash` of an optional slot: a fixed value for `undefined`,
otherwise the value's own `hashCode`. -/
def optHash : Option Transformer → Nat
  | none => 0
  | some t => Transformer.hashCode t

end

/-- Modelled from the spec (GraphRewriting.ts is not among the sources): the
transient builder of one rewrite pass — the read-only old generation, the new
generation being built, and the per-pass identity cache mapping old node
indices to new node indices. -/
structure Builder where
  oldNodes : List TNode
  newNodes : List TNode
  cache : List (Nat × Nat)

/-- Look up an old node index in the identity cache. -/
def lookupCache : List (Nat × Nat) → Nat → Option Nat
  | [], _ => none
  | p :: rest, i => if p.1 == i then some p.2 else lookupCache rest i

/-- Dereference a ref into the old generation held by the builder. -/
def derefOld (b : Builder) (r : TypeRef) : Option TNode :=
  if r.graph == 0 then b.oldNodes.get? r.index else none

/-- Append a node to the new generation and return its ref. -/
def allocNode (b : Builder) (node : TNode) : TypeRef × Builder :=
  (TypeRef.mk 1 b.newNodes.length, { b with newNodes := b.newNodes ++ [node] })

/-- Modelled from the spec: `reconstituteType` copies an old node into the new
generation with internal refs substituted by their own reconstituted images,
identity-cached so a second call on the same old node returns the identical
new ref.  Fuel bounds the recursion through the finite graph. -/
def reconstituteType : Nat → Builder → TypeRef → Except String (TypeRef × Builder)
  | 0, _, _ => Except.error "reconstituteType: out of fuel"
  | Nat.succ fuel, b, r =>
      match lookupCache b.cache r.index with
      | some n => Except.ok (TypeRef.mk 1 n, b)
      | none =>
          match derefOld b r with
          | none => Except.error "reconstituteType: dangling TypeRef"
          | some (TNode.prim k attrs) =>
              let p := allocNode b (TNode.prim k attrs)
              Except.ok (p.1, { p.2 with cache := (r.index, p.1.index) :: p.2.cache })
          | some (TNode.unionN members attrs) => do
              let res ← members.foldlM
                (fun (acc : List TypeRef × Builder) m => do
                  let q ← reconstituteType fuel acc.2 m
                  Except.ok (acc.1 ++ [q.1], q.2)) ([], b)
              let p := allocNode res.2 (TNode.unionN res.1 attrs)
              Except.ok (p.1, { p.2 with cache := (r.index, p.1.index) :: p.2.cache })

/-- Modelled from the spec: `reconstituteTypeRef` maps a ref to its image in
the new generation via `reconstituteType` (it cannot fail on the well-formed
graphs the builder contract assumes; the fallback branch is never exercised on
such graphs). -/
def reconstituteTypeRef (b : Builder) (r : TypeRef) : TypeRef × Builder :=
  match reconstituteType (b.oldNodes.length + 1) b r with
  | Except.ok p => p
  | Except.error _ => (TypeRef.mk 1 b.newNodes.length, b)

/-- The kind of a node of the new generation, when it is a primitive. -/
def kindOfNew (b : Builder) (r : TypeRef) : Option PrimKind :=
  if r.graph == 1 then
    match b.newNodes.get? r.index with
    | some (TNode.prim k _) => some k
    | _ => none
  else none

/-- No two entries of the list are equal. -/
def allDistinct : List (Option PrimKind) → Bool
  | [] => true
  | k :: rest => !(rest.contains k) && allDistinct rest

/-- Modelled from the spec: `getUnionType` builds a union node in the new
generation, asserting non-emptiness and distinct member kinds. -/
def getUnionType (b : Builder) (attrs : Option Transformation) (members : List TypeRef) :
    Except String (TypeRef × Builder) :=
  if members.isEmpty then Except.error "getUnionType: empty union"
  else if !(allDistinct (members.map (kindOfNew b))) then
    Except.error "getUnionType: duplicate member kinds"
  else Except.ok (allocNode b (TNode.unionN members attrs))

/-- Write a node at a given index of the new generation (the pre-allocated
forwarding slot), appending when the index is one past the end. -/
def setNodeAt : List TNode → Nat → TNode → List TNode
  | [], _, node => [node]
  | _ :: rest, 0, node => node :: rest
  | x :: rest, Nat.succ i, node => x :: setNodeAt rest i node

/-- Modelled from the spec: `getPrimitiveType` builds a primitive node,
optionally writing into a caller-supplied forwarding slot instead of
allocating a fresh node. -/
def getPrimitiveType (b : Builder) (k : PrimKind) (attrs : Option Transformation)
    (forwardingRef : Option TypeRef) : TypeRef × Builder :=
  match forwardingRef with
  | none => allocNode b (TNode.prim k attrs)
  | some f => (f, { b with newNodes := setNodeAt b.newNodes f.index (TNode.prim k attrs) })

/-- `union.findMember(kind)`: the member of the union (an old-generation node)
whose kind is `kind`, if any. -/
def findMember (b : Builder) (members : List TypeRef) (kind : PrimKind) : Option TypeRef :=
  members.find? (fun r =>
    match derefOld b r with
    | some (TNode.prim k _) => k == kind
    | _ => false)

/-- The inner `transformerForKind` closure of `replace` in
MakeTransformations.ts.  When the union has a member of the given kind, the
source constructs
`new UnionInstantiationTransformer(builder.reconstituteType(member), reconstitutedUnion)`
— two arguments for a one-parameter constructor, so under JavaScript call
semantics the stored `_unionRef` is the reconstituted member and the second
argument `reconstitutedUnion` is discarded. -/
def transformerForKind (b : Builder) (unionMembers : List TypeRef)
    (reconstitutedUnion : TypeRef) (kind : PrimKind) :
    Except String (Option Transformer × Builder) :=
  match findMember b unionMembers kind with
  | none => Except.ok (none, b)
  | some member => do
      let p ← reconstituteType (b.oldNodes.length + 1) b member
      let _ := reconstitutedUnion
      Except.ok (some (Transformer.UnionInstantiationTransformer p.1), p.2)

/-- The `replace` callback of MakeTransformations.ts.  In order: take the
single union of the group (`defined(setOfOneUnion.first())` panics on an empty
group), assert it has members, reconstitute the members and build the fresh
target union, then construct the `DecodingTransformer`.  The source call
passes eight arguments
`(getPrimitiveType("any"), tfk(null), tfk(integer), tfk(double), tfk(bool), tfk(string), undefined, undefined)`
to the seven-parameter constructor
`(nullTransformer, integerTransformer, doubleTransformer, boolTransformer, stringTransformer, arrayTransformer, objectTransformer)`,
so under JavaScript call semantics the null slot receives the raw `TypeRef`
of the fresh `"any"` primitive, each kind transformer lands one slot late,
and the trailing eighth argument is dropped.  Arguments are evaluated left to
right, which fixes the builder-state threading order.  Finally the
`Transformation` is wrapped into attributes and the `"any"` placeholder is
written into the forwarding slot. -/
def replace (setOfOneUnion : List TypeRef) (builder : Builder) (forwardingRef : TypeRef) :
    Except String (TypeRef × Builder) :=
  match setOfOneUnion with
  | [] => Except.error "defined: value is undefined"
  | unionRef :: _ =>
      match derefOld builder unionRef with
      | some (TNode.unionN members attrs) =>
          if members.isEmpty then Except.error "empty unions are not allowed"
          else do
            let pm ← members.foldlM
              (fun (acc : List TypeRef × Builder) m => do
                let p ← reconstituteType (acc.2.oldNodes.length + 1) acc.2 m
                Except.ok (acc.1 ++ [p.1], p.2)) ([], builder)
            let pu ← getUnionType pm.2 attrs pm.1
            let reconstitutedUnion := pu.1
            let pAny := getPrimitiveType pu.2 PrimKind.pany none none
            let pNull ← transformerForKind pAny.2 members reconstitutedUnion PrimKind.pnull
            let pInteger ← transformerForKind pNull.2 members reconstitutedUnion PrimKind.pinteger
            let pDouble ← transformerForKind pInteger.2 members reconstitutedUnion PrimKind.pdouble
            let pBool ← transformerForKind pDouble.2 members reconstitutedUnion PrimKind.pbool
            let pString ← transformerForKind pBool.2 members reconstitutedUnion PrimKind.pstring
            let transformer := Transformer.DecodingTransformer
              (some (Transformer.RawTypeRefValue pAny.1))
              pNull.1 pInteger.1 pDouble.1 pBool.1 pString.1 none
            let transformation := Transformation.mk reconstitutedUnion transformer
            Except.ok (getPrimitiveType pString.2 PrimKind.pany (some transformation) (some forwardingRef))
      | _ => Except.error "replace: group member is not a union"

mutual

/-- `Transformer.reconstitute` from Transformers.ts: the decoding variant
rebuilds each slot through the inner `reconstitute` helper (undefined slots
stay undefined, present slots are reconstituted recursively), in slot order;
the union instantiation variant maps its stored ref through
`builder.reconstituteTypeRef`.  A raw `TypeRef` stored in a slot has no
`reconstitute` method, so calling it fails. -/
def Transformer.reconstitute (b : Builder) : Transformer → Except String (Transformer × Builder)
  | Transformer.DecodingTransformer n i d bo s a o => do
      let pn ← reconstituteSlot b n
      let pi2 ← reconstituteSlot pn.2 i
      let pd ← reconstituteSlot pi2.2 d
      let pb ← reconstituteSlot pd.2 bo
      let ps ← reconstituteSlot pb.2 s
      let pa ← reconstituteSlot ps.2 a
      let po ← reconstituteSlot pa.2 o
      Except.ok (Transformer.DecodingTransformer pn.1 pi2.1 pd.1 pb.1 ps.1 pa.1 po.1, po.2)
  | Transformer.UnionInstantiationTransformer r =>
      Except.ok (Transformer.UnionInstantiationTransformer (reconstituteTypeRef b r).1,
        (reconstituteTypeRef b r).2)
  | Transformer.RawTypeRefValue _ => Except.error "reconstitute is not a function"

/-- The inner `reconstitute(xf)` helper of `DecodingTransformer.reconstitute`:
`undefined` maps to `undefined`, anything else to its own reconstitution. -/
def reconstituteSlot (b : Builder) : Option Transformer → Except String (Option Transformer × Builder)
  | none => Except.ok (none, b)
  | some t => do
      let p ← Transformer.reconstitute b t
      Except.ok (some p.1, p.2)

end

/-- `Transformation.reconstitute` from Transformers.ts: the target ref is
mapped through `builder.reconstituteTypeRef` and the transformer through its
own `reconstitute`. -/
def Transformation.reconstitute (b : Builder) (t : Transformation) :
    Except String (Transformation × Builder) :=
  match Transformer.reconstitute (reconstituteTypeRef b t.targetTypeRef).2 t.transformer with
  | Except.ok q =>
      Except.ok (Transformation.mk (reconstituteTypeRef b t.targetTypeRef).1 q.1, q.2)
  | Except.error e => Except.error e

/-- Discriminates the concrete variant of a transformer. -/
def variantIdx : Transformer → Nat
  | Transformer.DecodingTransformer _ _ _ _ _ _ _ => 0
  | Transformer.UnionInstantiationTransformer _ => 1
  | Transformer.RawTypeRefValue _ => 2

/-- Which of the seven decoding slots are defined (empty for the other
variants, which have no slots). -/
def definedSlots : Transformer → List Bool
  | Transformer.DecodingTransformer n i d b s a o =>
      [n.isSome, i.isSome, d.isSome, b.isSome, s.isSome, a.isSome, o.isSome]
  | _ => []

/-- Modelled from the spec: the string-representation configuration is opaque
and forwarded unchanged. -/
abbrev StringTypeMapping := Nat

/-- Modelled from the spec (GraphRewriting.ts is not among the sources):
`graph.rewrite` pre-allocates one forwarding slot per group, invokes the
replacer once per group, redirects every reference to a collapsed group
member to its replacement, and reconstitutes every other node unchanged. -/
def rewrite (old : List TNode) (_name : String) (_stringTypeMapping : StringTypeMapping)
    (_alphabetizeProperties : Bool) (groups : List (List TypeRef))
    (_debugPrintReconstitution : Bool)
    (replacer : List TypeRef → Builder → TypeRef → Except String (TypeRef × Builder)) :
    Except String (List TNode) := do
  let b0 : Builder := Builder.mk old (groups.map (fun _ => TNode.prim PrimKind.pany none)) []
  let pb ← (groups.zip (List.range groups.length)).foldlM
    (fun (b : Builder) gi => do
      let p ← replacer gi.1 b (TypeRef.mk 1 gi.2)
      let redirects := gi.1.filterMap
        (fun r => if r.graph == 0 then some (r.index, p.1.index) else none)
      Except.ok { p.2 with cache := redirects ++ p.2.cache }) b0
  let grouped := (groups.flatten).map (fun r => r.index)
  let pb2 ← (List.range old.length).foldlM
    (fun (b : Builder) i =>
      if grouped.contains i then Except.ok b
      else do
        let p ← reconstituteType (old.length + 1) b (TypeRef.mk 0 i)
        Except.ok p.2) pb
  Except.ok pb2.newNodes

/-- `makeTransformations` from MakeTransformations.ts: select the unions the
target language flags, build one singleton group per qualifying union, and
drive the rewrite with the `replace` callback.  The target predicate is given
on node indices of the input generation. -/
def makeTransformations (graph : List TNode) (stringTypeMapping : StringTypeMapping)
    (needsTransformerForUnion : Nat → Bool) (debugPrintReconstitution : Bool) :
    Except String (List TNode) :=
  let unions := (List.range graph.length).filter (fun i =>
    (match graph.get? i with
     | some (TNode.unionN _ _) => true
     | _ => false) && needsTransformerForUnion i)
  let groups := unions.map (fun i => [TypeRef.mk 0 i])
  rewrite graph "make-transformatios" stringTypeMapping false groups
    debugPrintReconstitution replace

/-- A JavaScript runtime value that may be passed to an `equals(other: any)`
method: a transformer, `undefined`, `null`, a number, a string, a plain
object, or a `TypeRef` object. -/
inductive JSVal where
  | xfVal (t : Transformer)
  | undefinedVal
  | nullVal
  | numberVal (n : Int)
  | stringVal (s : String)
  | plainObjectVal
  | typeRefVal (r : TypeRef)

/-- The `instanceof` test of each `equals` implementation: whether the
argument is an instance of the receiver's own concrete class. -/
def sameVariantInstance : Transformer → JSVal → Bool
  | Transformer.DecodingTransformer _ _ _ _ _ _ _,
      JSVal.xfVal (Transformer.DecodingTransformer _ _ _ _ _ _ _) => true
  | Transformer.UnionInstantiationTransformer _,
      JSVal.xfVal (Transformer.UnionInstantiationTransformer _) => true
  | Transformer.RawTypeRefValue _, JSVal.xfVal (Transformer.RawTypeRefValue _) => true
  | Transformer.RawTypeRefValue _, JSVal.typeRefVal _ => true
  | _, _ => false

/-- `equals(other: any)` under JavaScript dynamic dispatch: each variant
checks `instanceof` first and compares fields only on its own class; any
other argument — the other variant, `undefined`, `null`, numbers, strings,
plain objects — yields `false` without throwing. -/
def Transformer.equalsJS (t : Transformer) (v : JSVal) : Bool :=
  match v with
  | JSVal.xfVal t2 => Transformer.equals t t2
  | JSVal.typeRefVal r2 =>
      match t with
      | Transformer.RawTypeRefValue r => TypeRef.equals r r2
      | _ => false
  | _ => false

/-- The slot contributes the child `x`: the slot is defined and `x` is among
the children of its transformer. -/
def slotHasChild (gs : Graphs) (slot : Option Transformer) (x : TypeRef) : Prop :=
  ∃ t cs, slot = some t ∧ Transformer.getChildren gs t = Except.ok cs ∧ x ∈ cs

-- Scenario A of the spec: one union `U = integer | string`, flagged.
/-- Old generation of scenario A: the integer member, the string member, and
the union over them. -/
def scenarioA_old : List TNode :=
  [TNode.prim PrimKind.pinteger none,
   TNode.prim PrimKind.pstring none,
   TNode.unionN [TypeRef.mk 0 0, TypeRef.mk 0 1] none]

/-- Fresh builder for scenario A. -/
def scenarioA_builder : Builder := Builder.mk scenarioA_old [] []

/-- Running the replacer on scenario A, with the forwarding slot at the next
free index of the new generation. -/
def scenarioA_result : Except String (TypeRef × Builder) :=
  replace [TypeRef.mk 0 2] scenarioA_builder (TypeRef.mk 1 4)

/-- The transformation attribute carried by the placeholder node scenario A
produces. -/
def scenarioA_transformation : Option Transformation :=
  match scenarioA_result with
  | Except.ok p =>
      match p.2.newNodes.get? p.1.index with
      | some (TNode.prim _ (some tr)) => some tr
      | _ => none
  | Except.error _ => none

/-- Both generations as scenario A leaves them. -/
def scenarioA_graphs : Graphs :=
  match scenarioA_result with
  | Except.ok p => Graphs.mk p.2.oldNodes p.2.newNodes
  | Except.error _ => Graphs.mk [] []

-- Scenario B of the spec: union `U2 = null | integer | double | bool | string`,
-- flagged.
/-- Old generation of scenario B: the five scalar members and the union over
them. -/
def scenarioB_old : List TNode :=
  [TNode.prim PrimKind.pnull none,
   TNode.prim PrimKind.pinteger none,
   TNode.prim PrimKind.pdouble none,
   TNode.prim PrimKind.pbool none,
   TNode.prim PrimKind.pstring none,
   TNode.unionN [TypeRef.mk 0 0, TypeRef.mk 0 1, TypeRef.mk 0 2,
     TypeRef.mk 0 3, TypeRef.mk 0 4] none]

/-- Fresh builder for scenario B. -/
def scenarioB_builder : Builder := Builder.mk scenarioB_old [] []

/-- Running the replacer on scenario B, with the forwarding slot at the next
free index of the new generation. -/
def scenarioB_result : Except String (TypeRef × Builder) :=
  replace [TypeRef.mk 0 5] scenarioB_builder (TypeRef.mk 1 7)

/-- The transformation attribute carried by the placeholder node scenario B
produces. -/
def scenarioB_transformation : Option Transformation :=
  match scenarioB_result with
  | Except.ok p =>
      match p.2.newNodes.get? p.1.index with
      | some (TNode.prim _ (some tr)) => some tr
      | _ => none
  | Except.error _ => none

/-- Both generations as scenario B leaves them. -/
def scenarioB_graphs : Graphs :=
  match scenarioB_result with
  | Except.ok p => Graphs.mk p.2.oldNodes p.2.newNodes
  | Except.error _ => Graphs.mk [] []

/-- C1: evaluation of the replacer on the qualifying union
`U = integer | string` (scenario A, member kind set `K = {integer, string}`).
The claim says the DecodingTransformer has exactly the slots of `K` populated
and the array and object slots undefined.  The code instead passes eight
arguments to the seven-parameter constructor: the null slot receives the raw
`TypeRef` of the fresh `"any"` primitive (new-generation node 3), the integer
transformer lands in the double slot, the string transformer lands in the
array slot, and the integer and string slots stay undefined — so the populated
slot set is not `K` and the array slot is populated. -/
theorem replace_scenarioA_slots_shifted :
    scenarioA_transformation =
      some (Transformation.mk (TypeRef.mk 1 2)
        (Transformer.DecodingTransformer
          (some (Transformer.RawTypeRefValue (TypeRef.mk 1 3)))
          none
          (some (Transformer.UnionInstantiationTransformer (TypeRef.mk 1 0)))
          none
          none
          (some (Transformer.UnionInstantiationTransformer (TypeRef.mk 1 1)))
          none)) := by
  rfl

/-- C2: in scenario A, the UnionInstantiationTransformer built by
`transformerForKind` for the integer member (it ends up in the double slot,
see C1) stores the ref of the reconstituted integer member, new-generation
node 0, which dereferences to the integer primitive — not to the freshly built
target union (new-generation node 2).  Reading `unionType` through that stored
ref therefore panics, contradicting the claim that the stored `TypeRef`
dereferences to the Transformation's target union. -/
theorem unionInstantiation_stores_member_not_union_scenarioA :
    (scenarioA_transformation.map Transformation.transformer) =
      some (Transformer.DecodingTransformer
        (some (Transformer.RawTypeRefValue (TypeRef.mk 1 3)))
        none
        (some (Transformer.UnionInstantiationTransformer (TypeRef.mk 1 0)))
        none
        none
        (some (Transformer.UnionInstantiationTransformer (TypeRef.mk 1 1)))
        none) ∧
    (scenarioA_transformation.map Transformation.targetTypeRef) = some (TypeRef.mk 1 2) ∧
    derefG scenarioA_graphs (TypeRef.mk 1 0) = some (TNode.prim PrimKind.pinteger none) ∧
    unionTypeOf scenarioA_graphs (TypeRef.mk 1 0) =
      Except.error "Union instantiator with the wrong type" := by
  exact ⟨rfl, rfl, rfl, rfl⟩

/-- C3: in scenario B (union with all five scalar members) the claim expects
`getChildren()` on the produced Transformation to return 6 distinct types.
Instead it aborts: the null slot of the DecodingTransformer holds a raw
`TypeRef` (which has no `getChildren` method), and every populated slot is a
UnionInstantiationTransformer whose stored ref dereferences to a primitive
member, so `unionType` would panic as well.  The evaluation therefore yields
an error, not a list of 6 types. -/
theorem transformation_getChildren_fails_scenarioB :
    (scenarioB_transformation.map (fun tr => Transformation.getChildren scenarioB_graphs tr)) =
      some (Except.error "getChildren is not a function") := by
  have h : scenarioB_transformation =
      some (Transformation.mk (TypeRef.mk 1 5)
        (Transformer.DecodingTransformer
          (some (Transformer.RawTypeRefValue (TypeRef.mk 1 6)))
          (some (Transformer.UnionInstantiationTransformer (TypeRef.mk 1 0)))
          (some (Transformer.UnionInstantiationTransformer (TypeRef.mk 1 1)))
          (some (Transformer.UnionInstantiationTransformer (TypeRef.mk 1 2)))
          (some (Transformer.UnionInstantiationTransformer (TypeRef.mk 1 3)))
          (some (Transformer.UnionInstantiationTransformer (TypeRef.mk 1 4)))
          none)) := by rfl
  rw [h]
  rfl

/-- C4: if the replacer is invoked on a group whose union has zero members,
the `assert(!union.members.isEmpty())` fails and the pass aborts before
building any transformer or placeholder: `replace` returns an error and no
`(TypeRef, Builder)` result — in particular no placeholder carrying an empty
DecodingTransformer — is produced. -/
theorem replace_empty_union_aborts (b : Builder) (r : TypeRef) (rest : List TypeRef)
    (fwd : TypeRef) (attrs : Option Transformation)
    (h : derefOld b r = some (TNode.unionN [] attrs)) :
    replace (r :: rest) b fwd = Except.error "empty unions are not allowed" := by
  simp [replace, h, List.isEmpty]

/-- Witness for C4: a one-node graph holding an empty union makes the replacer
abort with the assertion message. -/
theorem replace_empty_union_aborts_witness :
    derefOld (Builder.mk [TNode.unionN [] none] [] []) (TypeRef.mk 0 0) =
      some (TNode.unionN [] none) ∧
    replace [TypeRef.mk 0 0] (Builder.mk [TNode.unionN [] none] [] [])
      (TypeRef.mk 1 0) = Except.error "empty unions are not allowed" :=
  ⟨rfl, replace_empty_union_aborts (Builder.mk [TNode.unionN [] none] [] [])
    (TypeRef.mk 0 0) [] (TypeRef.mk 1 0) none rfl⟩

/-- C8: reading `unionType` on a UnionInstantiationTransformer whose stored
ref dereferences to a node that is not a union panics with "Union instantiator
with the wrong type", and `getChildren()` on such a transformer fails the same
way; conversely `unionType` never returns a non-union node. -/
theorem unionType_wrong_type_panics :
    (∀ (gs : Graphs) (r : TypeRef) (node : TNode), derefG gs r = some node →
      (∀ ms a2, node ≠ TNode.unionN ms a2) →
      unionTypeOf gs r = Except.error "Union instantiator with the wrong type" ∧
        Transformer.getChildren gs (Transformer.UnionInstantiationTransformer r) =
          Except.error "Union instantiator with the wrong type") ∧
    (∀ (gs : Graphs) (r : TypeRef) (node : TNode), unionTypeOf gs r = Except.ok node →
      ∃ ms a2, node = TNode.unionN ms a2) := by
  constructor
  · intro gs r node hderef hnot
    have hu : unionTypeOf gs r = Except.error "Union instantiator with the wrong type" := by
      cases node with
      | prim k a => simp [unionTypeOf, hderef]
      | unionN ms a => exact absurd rfl (hnot ms a)
    refine ⟨hu, ?_⟩
    simp [Transformer.getChildren, hu]
  · intro gs r node h
    unfold unionTypeOf at h
    cases hd : derefG gs r with
    | none => rw [hd] at h; cases h
    | some n =>
        rw [hd] at h
        cases n with
        | prim k a => cases h
        | unionN ms a =>
            cases h
            exact ⟨ms, a, rfl⟩

/-- Witness for C8: a ref holding an integer primitive makes both `unionType`
and `getChildren` panic, and a ref holding a union makes `unionType` return
that union. -/
theorem unionType_wrong_type_panics_witness :
    (unionTypeOf (Graphs.mk [TNode.prim PrimKind.pinteger none] []) (TypeRef.mk 0 0) =
        Except.error "Union instantiator with the wrong type" ∧
      Transformer.getChildren (Graphs.mk [TNode.prim PrimKind.pinteger none] [])
          (Transformer.UnionInstantiationTransformer (TypeRef.mk 0 0)) =
        Except.error "Union instantiator with the wrong type") ∧
    (∃ ms a2, TNode.unionN ([] : List TypeRef) (none : Option Transformation) =
        TNode.unionN ms a2) :=
  ⟨unionType_wrong_type_panics.1 (Graphs.mk [TNode.prim PrimKind.pinteger none] [])
      (TypeRef.mk 0 0) (TNode.prim PrimKind.pinteger none) rfl
      (fun _ _ h => TNode.noConfusion h),
    unionType_wrong_type_panics.2 (Graphs.mk [TNode.unionN [] none] []) (TypeRef.mk 0 0)
      (TNode.unionN [] none) rfl⟩

theorem transformer_sizeOf_pos (t : Transformer) : 0 < sizeOf t := by
  cases t <;> simp

/-- Slot comparison agrees with structural equality of optional slots, given
that `Transformer.equals` agrees with structural equality on smaller
transformers. -/
theorem optIs_iff_aux (k : Nat)
    (IH : ∀ t1 t2 : Transformer, sizeOf t1 ≤ k → (Transformer.equals t1 t2 = true ↔ t1 = t2)) :
    ∀ o1 o2 : Option Transformer, sizeOf o1 ≤ k → (optIs o1 o2 = true ↔ o1 = o2) := by
  intro o1 o2 h
  cases o1 with
  | none => cases o2 <;> simp [optIs]
  | some x =>
      cases o2 with
      | none => simp [optIs]
      | some y =>
          have hx : sizeOf x ≤ k := by
            simp at h
            omega
          simp [optIs, IH x y hx]

/-- `Transformer.equals` decides structural equality: proved by strong
induction on the size of the first transformer. -/
theorem equals_iff_eq_aux :
    ∀ (k : Nat) (t1 t2 : Transformer), sizeOf t1 ≤ k →
      (Transformer.equals t1 t2 = true ↔ t1 = t2) := by
  intro k
  induction k with
  | zero =>
      intro t1 t2 h
      exact absurd h (by have := transformer_sizeOf_pos t1; omega)
  | succ k ih =>
      intro t1 t2 h
      cases t1 with
      | RawTypeRefValue r1 =>
          cases t2 <;> simp [Transformer.equals, TypeRef.equals]
      | UnionInstantiationTransformer r1 =>
          cases t2 <;> simp [Transformer.equals, TypeRef.equals]
      | DecodingTransformer n1 i1 d1 b1 s1 a1 o1 =>
          cases t2 with
          | RawTypeRefValue r2 => simp [Transformer.equals]
          | UnionInstantiationTransformer r2 => simp [Transformer.equals]
          | DecodingTransformer n2 i2 d2 b2 s2 a2 o2 =>
              have hsz : sizeOf n1 ≤ k ∧ sizeOf i1 ≤ k ∧ sizeOf d1 ≤ k ∧ sizeOf b1 ≤ k ∧
                  sizeOf s1 ≤ k ∧ sizeOf a1 ≤ k ∧ sizeOf o1 ≤ k := by
                simp at h
                omega
              obtain ⟨hn, hi, hd, hb, hs, ha, ho⟩ := hsz
              simp only [Transformer.equals, Bool.and_eq_true]
              rw [optIs_iff_aux k ih n1 n2 hn, optIs_iff_aux k ih i1 i2 hi,
                optIs_iff_aux k ih d1 d2 hd, optIs_iff_aux k ih b1 b2 hb,
                optIs_iff_aux k ih s1 s2 hs, optIs_iff_aux k ih a1 a2 ha,
                optIs_iff_aux k ih o1 o2 ho]
              simp [and_assoc]

/-- C5: Transformer equality is structural and hash-consistent — `equals` is
true exactly when the two transformers are the same variant with all
corresponding fields recursively equal (`TypeRef` fields by reference
identity), which the embedding renders as structural equality of the
`Transformer` values; and whenever `equals` is true the `hashCode` values
agree. -/
theorem transformer_equals_structural_and_hash (t1 t2 : Transformer) :
    (Transformer.equals t1 t2 = true ↔ t1 = t2) ∧
    (Transformer.equals t1 t2 = true → Transformer.hashCode t1 = Transformer.hashCode t2) := by
  have h := equals_iff_eq_aux (sizeOf t1) t1 t2 (le_refl _)
  exact ⟨h, fun he => by rw [h.mp he]⟩

/-- Witness for C5: two independently written transformer trees with the same
shape and fields are `equals`-true and hash-equal. -/
theorem transformer_equals_structural_and_hash_witness :
    Transformer.equals
        (Transformer.DecodingTransformer none none
          (some (Transformer.UnionInstantiationTransformer (TypeRef.mk 1 0))) none none none none)
        (Transformer.DecodingTransformer none none
          (some (Transformer.UnionInstantiationTransformer (TypeRef.mk 1 0))) none none none none) = true ∧
    Transformer.hashCode
        (Transformer.DecodingTransformer none none
          (some (Transformer.UnionInstantiationTransformer (TypeRef.mk 1 0))) none none none none) =
      Transformer.hashCode
        (Transformer.DecodingTransformer none none
          (some (Transformer.UnionInstantiationTransformer (TypeRef.mk 1 0))) none none none none) := by
  refine ⟨(transformer_equals_structural_and_hash _ _).1.mpr rfl, ?_⟩
  exact (transformer_equals_structural_and_hash _ _).2
    ((transformer_equals_structural_and_hash _ _).1.mpr rfl)

/-- C10: for every transformer and every argument that is not an instance of
the transformer's own concrete variant — a transformer of another variant,
`undefined`, `null`, or an arbitrary object — `equals` returns `false` (and,
being a total Boolean function, does not throw). -/
theorem equals_foreign_value_false (t : Transformer) (v : JSVal)
    (h : sameVariantInstance t v = false) :
    Transformer.equalsJS t v = false := by
  cases v with
  | xfVal t2 =>
      cases t <;> cases t2 <;>
        simp_all [sameVariantInstance, Transformer.equalsJS, Transformer.equals]
  | typeRefVal r2 =>
      cases t <;> simp_all [sameVariantInstance, Transformer.equalsJS]
  | undefinedVal => simp [Transformer.equalsJS]
  | nullVal => simp [Transformer.equalsJS]
  | numberVal n => simp [Transformer.equalsJS]
  | stringVal s => simp [Transformer.equalsJS]
  | plainObjectVal => simp [Transformer.equalsJS]

/-- Witness for C10: a UnionInstantiationTransformer compared against `null`
returns `false`. -/
theorem equals_foreign_value_false_witness :
    sameVariantInstance (Transformer.UnionInstantiationTransformer (TypeRef.mk 0 0))
      JSVal.nullVal = false ∧
    Transformer.equalsJS (Transformer.UnionInstantiationTransformer (TypeRef.mk 0 0))
      JSVal.nullVal = false :=
  ⟨rfl, equals_foreign_value_false (Transformer.UnionInstantiationTransformer (TypeRef.mk 0 0))
    JSVal.nullVal rfl⟩

theorem osAdd_mem (l : List TypeRef) (y x : TypeRef) : x ∈ osAdd l y ↔ x ∈ l ∨ x = y := by
  by_cases hy : y ∈ l
  · simp only [osAdd, if_pos hy]
    exact ⟨Or.inl, fun h2 => h2.elim id (fun he => he ▸ hy)⟩
  · simp [osAdd, hy]

theorem osUnion_mem : ∀ (b a : List TypeRef) (x : TypeRef), x ∈ osUnion a b ↔ x ∈ a ∨ x ∈ b := by
  intro b
  induction b with
  | nil => intro a x; simp [osUnion]
  | cons y ys ih =>
      intro a x
      have hstep : osUnion a (y :: ys) = osUnion (osAdd a y) ys := rfl
      rw [hstep, ih, osAdd_mem]
      simp [or_assoc]

theorem except_bind_ok {α β : Type} (x : Except String α) (f : α → Except String β) (b : β)
    (h : (x >>= f) = Except.ok b) : ∃ a, x = Except.ok a ∧ f a = Except.ok b := by
  cases x with
  | ok a => exact ⟨a, rfl, h⟩
  | error e => simp [Bind.bind, Except.bind] at h

theorem slotChildren_ok_mem (gs : Graphs) (o : Option Transformer) (acc l : List TypeRef)
    (h : slotChildren gs o acc = Except.ok l) (x : TypeRef) :
    x ∈ l ↔ x ∈ acc ∨ slotHasChild gs o x := by
  cases o with
  | none =>
      simp only [slotChildren] at h
      cases h
      simp [slotHasChild]
  | some t =>
      simp only [slotChildren] at h
      obtain ⟨cs, hcs, hok⟩ := except_bind_ok _ _ _ h
      cases hok
      rw [osUnion_mem]
      constructor
      · intro hx
        exact hx.elim Or.inl (fun hc => Or.inr ⟨t, cs, rfl, hcs, hc⟩)
      · intro hx
        refine hx.elim Or.inl (fun hc => ?_)
        obtain ⟨t2, cs2, ht2, hcs2, hm⟩ := hc
        cases ht2
        rw [hcs] at hcs2
        cases hcs2
        exact Or.inr hm

/-- C6: `DecodingTransformer.getChildren` returns exactly the union of the
children of its defined sub-transformer slots — a type is in the result
precisely when some defined slot contributes it — and
`UnionInstantiationTransformer.getChildren`, when the stored ref dereferences
to a union, returns exactly the singleton of that union. -/
theorem getChildren_exact :
    (∀ (gs : Graphs) (n i d b s a o : Option Transformer) (l : List TypeRef),
      Transformer.getChildren gs (Transformer.DecodingTransformer n i d b s a o) =
        Except.ok l →
      ∀ x, x ∈ l ↔ (slotHasChild gs n x ∨ slotHasChild gs i x ∨ slotHasChild gs d x ∨
        slotHasChild gs b x ∨ slotHasChild gs s x ∨ slotHasChild gs a x ∨
        slotHasChild gs o x)) ∧
    (∀ (gs : Graphs) (r : TypeRef) (ms : List TypeRef) (attrs2 : Option Transformation),
      derefG gs r = some (TNode.unionN ms attrs2) →
      Transformer.getChildren gs (Transformer.UnionInstantiationTransformer r) =
        Except.ok [r]) := by
  constructor
  · intro gs n i d b s a o l h x
    simp only [Transformer.getChildren] at h
    obtain ⟨c1, h1, h⟩ := except_bind_ok _ _ _ h
    obtain ⟨c2, h2, h⟩ := except_bind_ok _ _ _ h
    obtain ⟨c3, h3, h⟩ := except_bind_ok _ _ _ h
    obtain ⟨c4, h4, h⟩ := except_bind_ok _ _ _ h
    obtain ⟨c5, h5, h⟩ := except_bind_ok _ _ _ h
    obtain ⟨c6, h6, h⟩ := except_bind_ok _ _ _ h
    rw [slotChildren_ok_mem gs o c6 l h x,
      slotChildren_ok_mem gs a c5 c6 h6 x,
      slotChildren_ok_mem gs s c4 c5 h5 x,
      slotChildren_ok_mem gs b c3 c4 h4 x,
      slotChildren_ok_mem gs d c2 c3 h3 x,
      slotChildren_ok_mem gs i c1 c2 h2 x,
      slotChildren_ok_mem gs n [] c1 h1 x]
    simp [or_assoc]
  · intro gs r ms attrs2 hd
    simp only [Transformer.getChildren]
    simp [unionTypeOf, hd, osAdd]

/-- Witness for C6: a decoding transformer with every slot undefined has no
children, and a union instantiation transformer over a union node has exactly
that union as its child. -/
theorem getChildren_exact_witness :
    Transformer.getChildren (Graphs.mk [] [TNode.unionN [] none])
        (Transformer.DecodingTransformer none none none none none none none) =
      Except.ok [] ∧
    ((TypeRef.mk 1 0) ∈ ([] : List TypeRef) ↔
      (slotHasChild (Graphs.mk [] [TNode.unionN [] none]) none (TypeRef.mk 1 0) ∨
        slotHasChild (Graphs.mk [] [TNode.unionN [] none]) none (TypeRef.mk 1 0) ∨
        slotHasChild (Graphs.mk [] [TNode.unionN [] none]) none (TypeRef.mk 1 0) ∨
        slotHasChild (Graphs.mk [] [TNode.unionN [] none]) none (TypeRef.mk 1 0) ∨
        slotHasChild (Graphs.mk [] [TNode.unionN [] none]) none (TypeRef.mk 1 0) ∨
        slotHasChild (Graphs.mk [] [TNode.unionN [] none]) none (TypeRef.mk 1 0) ∨
        slotHasChild (Graphs.mk [] [TNode.unionN [] none]) none (TypeRef.mk 1 0))) ∧
    derefG (Graphs.mk [] [TNode.unionN [] none]) (TypeRef.mk 1 0) =
      some (TNode.unionN [] none) ∧
    Transformer.getChildren (Graphs.mk [] [TNode.unionN [] none])
        (Transformer.UnionInstantiationTransformer (TypeRef.mk 1 0)) =
      Except.ok [TypeRef.mk 1 0] :=
  ⟨rfl,
    getChildren_exact.1 (Graphs.mk [] [TNode.unionN [] none])
      none none none none none none none [] rfl (TypeRef.mk 1 0),
    rfl,
    getChildren_exact.2 (Graphs.mk [] [TNode.unionN [] none]) (TypeRef.mk 1 0) [] none rfl⟩

theorem reconstituteSlot_isSome (b : Builder) (o o2 : Option Transformer) (b2 : Builder)
    (h : reconstituteSlot b o = Except.ok (o2, b2)) : o2.isSome = o.isSome := by
  cases o with
  | none =>
      simp only [reconstituteSlot] at h
      cases h
      rfl
  | some t =>
      simp only [reconstituteSlot] at h
      obtain ⟨p, _, hok⟩ := except_bind_ok _ _ _ h
      cases hok
      rfl

/-- C7: `reconstitute` returns a new instance of the same variant.  For a
UnionInstantiationTransformer the result stores exactly the image of the old
ref under the builder; for a DecodingTransformer a slot is defined in the
result exactly when it was defined in the original; for a Transformation the
target ref is replaced by its builder image and the transformer by its own
reconstitution. -/
theorem reconstitute_preserves_structure :
    (∀ (b : Builder) (r : TypeRef),
      Transformer.reconstitute b (Transformer.UnionInstantiationTransformer r) =
        Except.ok (Transformer.UnionInstantiationTransformer (reconstituteTypeRef b r).1,
          (reconstituteTypeRef b r).2)) ∧
    (∀ (b : Builder) (t t2 : Transformer) (b2 : Builder),
      Transformer.reconstitute b t = Except.ok (t2, b2) →
      variantIdx t2 = variantIdx t ∧ definedSlots t2 = definedSlots t) ∧
    (∀ (b : Builder) (tr tr2 : Transformation) (b2 : Builder),
      Transformation.reconstitute b tr = Except.ok (tr2, b2) →
      tr2.targetTypeRef = (reconstituteTypeRef b tr.targetTypeRef).1 ∧
      Transformer.reconstitute (reconstituteTypeRef b tr.targetTypeRef).2 tr.transformer =
        Except.ok (tr2.transformer, b2)) := by
  refine ⟨fun b r => rfl, ?_, ?_⟩
  · intro b t t2 b2 h
    cases t with
    | RawTypeRefValue r =>
        simp only [Transformer.reconstitute] at h
        cases h
    | UnionInstantiationTransformer r =>
        simp only [Transformer.reconstitute] at h
        cases h
        exact ⟨rfl, rfl⟩
    | DecodingTransformer n i d bo s a o =>
        simp only [Transformer.reconstitute] at h
        obtain ⟨pn, hn, h⟩ := except_bind_ok _ _ _ h
        obtain ⟨pi2, hi, h⟩ := except_bind_ok _ _ _ h
        obtain ⟨pd, hd, h⟩ := except_bind_ok _ _ _ h
        obtain ⟨pb, hb, h⟩ := except_bind_ok _ _ _ h
        obtain ⟨ps, hs, h⟩ := except_bind_ok _ _ _ h
        obtain ⟨pa, ha, h⟩ := except_bind_ok _ _ _ h
        obtain ⟨po, ho, h⟩ := except_bind_ok _ _ _ h
        cases h
        refine ⟨rfl, ?_⟩
        simp only [definedSlots]
        rw [reconstituteSlot_isSome _ _ _ _ hn, reconstituteSlot_isSome _ _ _ _ hi,
          reconstituteSlot_isSome _ _ _ _ hd, reconstituteSlot_isSome _ _ _ _ hb,
          reconstituteSlot_isSome _ _ _ _ hs, reconstituteSlot_isSome _ _ _ _ ha,
          reconstituteSlot_isSome _ _ _ _ ho]
  · intro b tr tr2 b2 h
    unfold Transformation.reconstitute at h
    cases hq : Transformer.reconstitute (reconstituteTypeRef b tr.targetTypeRef).2
        tr.transformer with
    | error e => rw [hq] at h; cases h
    | ok q =>
        obtain ⟨q1, q2⟩ := q
        rw [hq] at h
        cases h
        exact ⟨rfl, rfl⟩

/-- Witness for C7: the union instantiation equation at a concrete builder and
ref, and structure preservation of an all-undefined decoding transformer. -/
theorem reconstitute_preserves_structure_witness :
    Transformer.reconstitute (Builder.mk [TNode.prim PrimKind.pinteger none] [] [])
        (Transformer.UnionInstantiationTransformer (TypeRef.mk 0 0)) =
      Except.ok (Transformer.UnionInstantiationTransformer
          (reconstituteTypeRef (Builder.mk [TNode.prim PrimKind.pinteger none] [] [])
            (TypeRef.mk 0 0)).1,
        (reconstituteTypeRef (Builder.mk [TNode.prim PrimKind.pinteger none] [] [])
          (TypeRef.mk 0 0)).2) ∧
    (variantIdx (Transformer.DecodingTransformer none none none none none none none) =
        variantIdx (Transformer.DecodingTransformer none none none none none none none) ∧
      definedSlots (Transformer.DecodingTransformer none none none none none none none) =
        definedSlots (Transformer.DecodingTransformer none none none none none none none)) :=
  ⟨reconstitute_preserves_structure.1 (Builder.mk [TNode.prim PrimKind.pinteger none] [] [])
      (TypeRef.mk 0 0),
    reconstitute_preserves_structure.2.1 (Builder.mk [TNode.prim PrimKind.pinteger none] [] [])
      (Transformer.DecodingTransformer none none none none none none none)
      (Transformer.DecodingTransformer none none none none none none none)
      (Builder.mk [TNode.prim PrimKind.pinteger none] [] []) rfl⟩

/-- C9: the pass is a pure function of its inputs — two runs of
`makeTransformations` on the same old graph, string-type mapping, target
predicate and debug flag produce the same result.  In the embedding the pass
is a total function with no effect type, which also renders its freedom from
I/O and from mutation of the old generation. -/
theorem makeTransformations_deterministic (g1 g2 : List TNode)
    (m1 m2 : StringTypeMapping) (p1 p2 : Nat → Bool) (d1 d2 : Bool)
    (hg : g1 = g2) (hm : m1 = m2) (hp : ∀ u, p1 u = p2 u) (hd : d1 = d2) :
    makeTransformations g1 m1 p1 d1 = makeTransformations g2 m2 p2 d2 := by
  subst hg
  subst hm
  subst hd
  rw [funext hp]

/-- Witness for C9: two runs on scenario A with the flag-everything predicate
agree. -/
theorem makeTransformations_deterministic_witness :
    makeTransformations scenarioA_old (0 : StringTypeMapping) (fun _ => true) false =
      makeTransformations scenarioA_old (0 : StringTypeMapping) (fun _ => true) false :=
  makeTransformations_deterministic scenarioA_old scenarioA_old
    (0 : StringTypeMapping) (0 : StringTypeMapping) (fun _ => true) (fun _ => true)
    false false rfl rfl (fun _ => rfl) rfl
